import Mathlib

/-!
# Pong server: game state, paddle commands and the physics tick

A shallow embedding of `main.go`.

Modelling conventions, used throughout:

* `float64` fields are exact rationals.  Every constant of the program
  (`1.5`, `16`, `37.5`, `30`, `75`, `300`, `225`, `375`, `570`) is a dyadic
  rational, so on the values the server reaches the floating-point
  operations are exact; rounding, infinities and NaN are outside the model.
* `int` scores are unbounded integers: a score grows by one per goal, so
  the wrap-around at the word size is out of reach and is not modelled.
* `rand.Intn` reads from an explicit stream of raw draws that is threaded
  through the functions that consume it.
* The mutex `mu` makes each command application and each `updateGame` call
  atomic; the model runs them as atomic steps of a sequential trace.
* `broadcastGameState` is run on its own, with no handler changing the
  registry while it loops; which of its steps hold the mutex is recorded
  separately (section "Lock discipline").
-/

namespace Pong

/-! ## Constants and the state record -/

/-- The constant `width` of the source. -/
def width : ℚ := 600

/-- The constant `height` of the source. -/
def height : ℚ := 450

/-- The struct `GameState`: ball position, ball velocity, paddles, scores. -/
structure GameState where
  BallX : ℚ
  BallY : ℚ
  BallVelX : ℚ
  BallVelY : ℚ
  Paddle1Y : ℚ
  Paddle2Y : ℚ
  Score1 : Int
  Score2 : Int
deriving DecidableEq

/-- The value assigned to `gameState` at the start of `main`; the two score
fields are left at their zero value. -/
def initState : GameState :=
  { BallX := width / 2
    BallY := height / 2
    BallVelX := 3 / 2
    BallVelY := 3 / 2
    Paddle1Y := height / 2 - 75 / 2
    Paddle2Y := height / 2 - 75 / 2
    Score1 := 0
    Score2 := 0 }

/-! ## The random source -/

/-- An infinite stream of raw outputs of the pseudo-random generator. -/
def Rand : Type := Nat → Nat

/-- The call `rand.Intn(n)`: the next raw draw reduced to `[0, n)`, together
with the rest of the stream. -/
def Intn (n : Nat) (r : Rand) : Nat × Rand :=
  (r 0 % n, fun i => r (i + 1))

/-! ## Physics and scoring -/

/-- The function `resetBall`: centre the ball and redraw both velocity
signs, consuming two draws. -/
def resetBall (s : GameState) (r : Rand) : GameState × Rand :=
  let s := { s with BallX := width / 2 }
  let s := { s with BallY := height / 2 }
  let d := Intn 2 r
  let s := if d.1 = 0 then { s with BallVelX := 3 / 2 } else { s with BallVelX := -(3 / 2) }
  let e := Intn 2 d.2
  let s := if e.1 = 0 then { s with BallVelY := 3 / 2 } else { s with BallVelY := -(3 / 2) }
  (s, e.2)

/-- First two statements of `updateGame`: move the ball by its velocity. -/
def moveBall (s : GameState) : GameState :=
  let s := { s with BallX := s.BallX + s.BallVelX }
  { s with BallY := s.BallY + s.BallVelY }

/-- The top and bottom bounce of `updateGame`. -/
def bounceWalls (s : GameState) : GameState :=
  if s.BallY ≤ 0 ∨ s.BallY ≥ height then { s with BallVelY := -s.BallVelY } else s

/-- The left-side check of `updateGame` (player 1 paddle). -/
def checkLeft (s : GameState) (r : Rand) : GameState × Rand :=
  if s.BallX ≤ 30 then
    if s.BallY ≥ s.Paddle1Y ∧ s.BallY ≤ s.Paddle1Y + 75 then
      ({ s with BallVelX := -s.BallVelX }, r)
    else
      resetBall { s with Score2 := s.Score2 + 1 } r
  else (s, r)

/-- The right-side check of `updateGame` (player 2 paddle). -/
def checkRight (s : GameState) (r : Rand) : GameState × Rand :=
  if s.BallX ≥ width - 30 then
    if s.BallY ≥ s.Paddle2Y ∧ s.BallY ≤ s.Paddle2Y + 75 then
      ({ s with BallVelX := -s.BallVelX }, r)
    else
      resetBall { s with Score1 := s.Score1 + 1 } r
  else (s, r)

/-- The function `updateGame`: advance the ball, bounce off the walls, then
run the left and the right goal checks, in that order and unconditionally. -/
def updateGame (s : GameState) (r : Rand) : GameState × Rand :=
  let s := bounceWalls (moveBall s)
  let p := checkLeft s r
  checkRight p.1 p.2

/-! ## Inbound messages -/

/-- A value produced by decoding JSON into `interface{}`. -/
inductive Value where
  | null : Value
  | bool (b : Bool) : Value
  | number (f : ℚ) : Value
  | string (s : String) : Value
  | array (items : List Value) : Value
  | object (fields : List (String × Value)) : Value

/-- A decoded message `map[string]interface{}`, as its key/value pairs. -/
abbrev Msg : Type := List (String × Value)

/-- The conversion `int(f)` of a `float64`: truncation toward zero.  (For a
value beyond the range of `int` the Go result is implementation-defined;
the model keeps the exact integer part.) -/
def toInt (f : ℚ) : Int := Int.tdiv f.num f.den

/-- The body of the `mu.Lock()` ... `mu.Unlock()` section of `wsHandler`:
move the named paddle one step of 16 and clamp it. -/
def movePaddle (paddle : Int) (direction : String) (s : GameState) : GameState :=
  if paddle = 1 then
    if direction = "up" then
      let s := { s with Paddle1Y := s.Paddle1Y - 16 }
      if s.Paddle1Y < 0 then { s with Paddle1Y := 0 } else s
    else if direction = "down" then
      let s := { s with Paddle1Y := s.Paddle1Y + 16 }
      if s.Paddle1Y > height - 75 then { s with Paddle1Y := height - 75 } else s
    else s
  else if paddle = 2 then
    if direction = "up" then
      let s := { s with Paddle2Y := s.Paddle2Y - 16 }
      if s.Paddle2Y < 0 then { s with Paddle2Y := 0 } else s
    else if direction = "down" then
      let s := { s with Paddle2Y := s.Paddle2Y + 16 }
      if s.Paddle2Y > height - 75 then { s with Paddle2Y := height - 75 } else s
    else s
  else s

/-- The condition `msg["type"] == "move"`: the entry under `type` is a
string and that string is `move`.  A missing key yields the nil interface,
which is not equal to a string. -/
def typeIsMove (msg : Msg) : Bool :=
  match msg.lookup "type" with
  | some (Value.string t) => t == "move"
  | _ => false

/-- One pass through the loop body of `wsHandler` after a successful
`ReadJSON`.  The result `none` is the run-time panic of a failed type
assertion `.(float64)` or `.(string)`; both assertions are evaluated before
the lock is taken, so a panic leaves the game state untouched. -/
def handleMessage (msg : Msg) (s : GameState) : Option GameState :=
  if typeIsMove msg then
    match msg.lookup "paddle" with
    | some (Value.number f) =>
      match msg.lookup "direction" with
      | some (Value.string direction) => some (movePaddle (toInt f) direction s)
      | _ => none
    | _ => none
  else some s

/-- The well-formed command object with the three expected fields. -/
def moveMsg (paddle : ℚ) (direction : String) : Msg :=
  [("type", Value.string "move"), ("paddle", Value.number paddle),
   ("direction", Value.string direction)]

/-! ## Connections and the receive loop -/

/-- A connection handle (the pointer `*websocket.Conn`). -/
abbrev Conn : Type := Nat

/-- The shared variables `gameState` and `clients`. -/
structure Server where
  gameState : GameState
  clients : List Conn

/-- The statement `clients[conn] = true`. -/
def addClient (conn : Conn) (sv : Server) : Server :=
  { sv with clients := if conn ∈ sv.clients then sv.clients else conn :: sv.clients }

/-- The statement `delete(clients, conn)`. -/
def deleteClient (conn : Conn) (sv : Server) : Server :=
  { sv with clients := sv.clients.filter (fun c => c ≠ conn) }

/-- The result of one call of `conn.ReadJSON(&msg)`. -/
inductive Read where
  | error : Read
  | message (msg : Msg) : Read

/-- Where the handler of a connection stands after the reads so far. -/
inductive Status where
  | reading : Status
  | disconnected : Status
  | panicked : Status
deriving DecidableEq

/-- The `for` loop of `wsHandler` together with the removal that follows it,
run on the reads that have arrived so far.  With no read left the handler
blocks in `ReadJSON` (`reading`).  A read error breaks out of the loop and
the statements after it delete the connection (`disconnected`).  A panic
unwinds the handler past those statements, so the deletion is skipped. -/
def readLoop (conn : Conn) : List Read → Server → Server × Status
  | [], sv => (sv, Status.reading)
  | Read.error :: _, sv => (deleteClient conn sv, Status.disconnected)
  | Read.message msg :: rest, sv =>
    match handleMessage msg sv.gameState with
    | none => (sv, Status.panicked)
    | some s => readLoop conn rest { sv with gameState := s }

/-- The function `wsHandler` after a successful upgrade: register the
connection, then run the receive loop. -/
def wsHandler (conn : Conn) (reads : List Read) (sv : Server) : Server × Status :=
  readLoop conn reads (addClient conn sv)

/-- What one call of `broadcastGameState` leaves behind: the shared
variables, the `WriteJSON` calls made (connection and value written, in
order) and the connections it closed. -/
structure Broadcast where
  server : Server
  writes : List (Conn × GameState)
  closed : List Conn

/-- The `range clients` loop of `broadcastGameState`, run over the keys of
the registry in the order the iteration yields them.  Each key gets one
`WriteJSON(state)`; `writeOk client = false` is a write error, after which
the connection is closed and deleted from the registry.  Deleting the
current key does not disturb the iteration over the remaining keys. -/
def broadcastLoop (writeOk : Conn → Bool) (state : GameState) :
    List Conn → Server → Broadcast
  | [], sv => { server := sv, writes := [], closed := [] }
  | client :: rest, sv =>
    if writeOk client then
      let b := broadcastLoop writeOk state rest sv
      { b with writes := (client, state) :: b.writes }
    else
      let b := broadcastLoop writeOk state rest (deleteClient client sv)
      { b with writes := (client, state) :: b.writes, closed := client :: b.closed }

/-- The function `broadcastGameState`: copy `gameState` once, then run the
loop over the registry with that copy. -/
def broadcastGameState (writeOk : Conn → Bool) (sv : Server) : Broadcast :=
  let state := sv.gameState
  broadcastLoop writeOk state sv.clients sv

/-! ## Lock discipline -/

/-- One step of a function as the mutex sees it: `mu.Lock()`, `mu.Unlock()`,
an access to `gameState`, an access to `clients` (lookup, insertion,
deletion or a step of `range`), or anything else (network I/O, logging). -/
inductive Op where
  | lock : Op
  | unlock : Op
  | state : Op
  | registry : Op
  | other : Op

/-- Whether every access to `gameState` and to `clients` in a sequence of
steps happens while the mutex is held; `held` says whether it is held at
the start. -/
def lockedThroughout : Bool → List Op → Bool
  | _, [] => true
  | _, Op.lock :: ops => lockedThroughout true ops
  | _, Op.unlock :: ops => lockedThroughout false ops
  | held, Op.state :: ops => held && lockedThroughout held ops
  | held, Op.registry :: ops => held && lockedThroughout held ops
  | held, Op.other :: ops => lockedThroughout held ops

/-- Registration in `wsHandler`: `mu.Lock(); clients[conn] = true;
mu.Unlock()`. -/
def registerOps : List Op := [Op.lock, Op.registry, Op.unlock]

/-- One move command in `wsHandler`: `mu.Lock()`, the reads and writes of
the paddle field, `mu.Unlock()`. -/
def moveOps : List Op := [Op.lock, Op.state, Op.unlock]

/-- Removal in `wsHandler`: `mu.Lock(); delete(clients, conn);
mu.Unlock()`. -/
def unregisterOps : List Op := [Op.lock, Op.registry, Op.unlock]

/-- The function `updateGame`: `mu.Lock()`, `defer mu.Unlock()`, and the
whole body, `resetBall` included, in between. -/
def updateGameOps : List Op := [Op.lock, Op.state, Op.unlock]

/-- The `for client := range clients` loop of `broadcastGameState`, entered
after `mu.Unlock()`.  Each iteration reads the registry for the next key,
writes to the connection, and on a write error closes the connection and
runs `mu.Lock(); delete(clients, client); mu.Unlock()`.  A last read of the
registry finds no further key. -/
def broadcastLoopOps (writeOk : Conn → Bool) : List Conn → List Op
  | [] => [Op.registry]
  | client :: rest =>
    Op.registry :: Op.other ::
      ((if writeOk client then [] else [Op.other, Op.lock, Op.registry, Op.unlock]) ++
        broadcastLoopOps writeOk rest)

/-- The function `broadcastGameState`: `mu.Lock(); state := gameState;
mu.Unlock()`, then the loop. -/
def broadcastOps (writeOk : Conn → Bool) (clients : List Conn) : List Op :=
  [Op.lock, Op.state, Op.unlock] ++ broadcastLoopOps writeOk clients

/-! ## Traces of commands and ticks -/

/-- One atomic step of the server seen from the game state: a decoded
message handled by some connection, or one firing of the ticker. -/
inductive Event where
  | command (msg : Msg) : Event
  | tick : Event

/-- The effect of one event on the game state and the random stream.  A
message whose handling panics leaves the state as it was. -/
def step (e : Event) (p : GameState × Rand) : GameState × Rand :=
  match e with
  | Event.command msg => ((handleMessage msg p.1).getD p.1, p.2)
  | Event.tick => updateGame p.1 p.2

/-- Run a finite trace of events, oldest first. -/
def run (evs : List Event) (p : GameState × Rand) : GameState × Rand :=
  evs.foldl (fun q e => step e q) p

/-- The sign of a velocity component: `1`, `-1` or `0`. -/
def sgn (x : ℚ) : Int :=
  if 0 < x then 1 else if x < 0 then -1 else 0

/-- The position of the paddle a command names: `Paddle1Y` for 1,
`Paddle2Y` otherwise. -/
def paddleY (paddle : Int) (s : GameState) : ℚ :=
  if paddle = 1 then s.Paddle1Y else s.Paddle2Y

/-! ## Predicates and sample states used in the statements -/

/-- Both paddles lie in the range `[0, 375]`. -/
def PaddlesInRange (s : GameState) : Prop :=
  0 ≤ s.Paddle1Y ∧ s.Paddle1Y ≤ 375 ∧ 0 ≤ s.Paddle2Y ∧ s.Paddle2Y ≤ 375

/-- A ball one step right of the left goal line, flying left and upward,
well above the first paddle. -/
def leftMissState : GameState :=
  { BallX := 63 / 2, BallY := 30, BallVelX := -(3 / 2), BallVelY := 3 / 2,
    Paddle1Y := 375 / 2, Paddle2Y := 375 / 2, Score1 := 0, Score2 := 0 }

/-- A ball one step left of the right goal line, flying right and upward,
well above the second paddle. -/
def rightMissState : GameState :=
  { BallX := 1137 / 2, BallY := 30, BallVelX := 3 / 2, BallVelY := 3 / 2,
    Paddle1Y := 375 / 2, Paddle2Y := 375 / 2, Score1 := 0, Score2 := 0 }

/-- The message with the single field `"type": "jump"`. -/
def jumpMsg : Msg := [("type", Value.string "jump")]

/-- The server at start-up: the initial game state and no connection. -/
def initServer : Server := { gameState := initState, clients := [] }

/-- A ball half a step below the bottom wall line, flying down. -/
def wallBounceState : GameState :=
  { BallX := 300, BallY := 897 / 2, BallVelX := 3 / 2, BallVelY := 3 / 2,
    Paddle1Y := 375 / 2, Paddle2Y := 375 / 2, Score1 := 0, Score2 := 0 }

/-- A ball one step right of the left goal line, flying left, level with
the first paddle. -/
def paddleHitState : GameState :=
  { BallX := 63 / 2, BallY := 200, BallVelX := -(3 / 2), BallVelY := 3 / 2,
    Paddle1Y := 375 / 2, Paddle2Y := 375 / 2, Score1 := 0, Score2 := 0 }

/-- A ball one step right of the left goal line, flying left and upward,
whose advanced height is exactly the lower end `Paddle1Y + 75` of the first
paddle. -/
def edgeHitState : GameState :=
  { BallX := 63 / 2, BallY := 261, BallVelX := -(3 / 2), BallVelY := 3 / 2,
    Paddle1Y := 375 / 2, Paddle2Y := 375 / 2, Score1 := 0, Score2 := 0 }

/-- The variant of `updateGame` the design notes allow: the same statements,
with an explicit `return` right after the score event (score increment and
`resetBall`) of the left-side check. -/
def updateGameEarlyReturn (s : GameState) (r : Rand) : GameState × Rand :=
  let s := bounceWalls (moveBall s)
  if s.BallX ≤ 30 then
    if s.BallY ≥ s.Paddle1Y ∧ s.BallY ≤ s.Paddle1Y + 75 then
      checkRight { s with BallVelX := -s.BallVelX } r
    else
      resetBall { s with Score2 := s.Score2 + 1 } r
  else checkRight s r

/-- A `move` message for paddle 3 that has no `direction` field; the
assertion `.(string)` on it panics. -/
def noDirectionMsg : Msg :=
  [("type", Value.string "move"), ("paddle", Value.number 3)]

/-- A coordinate `x` with velocity `v` on the track between `lo` and `hi`:
the speed is `1.5`, `x` is a whole number of steps of `1.5` away from `lo`
and lies in `[lo, hi]`, and at either end the velocity points inward. -/
def OnTrack (lo hi x v : ℚ) : Prop :=
  (v = 3 / 2 ∨ v = -(3 / 2)) ∧ (∃ k : Int, x = lo + 3 / 2 * k) ∧ lo ≤ x ∧ x ≤ hi ∧
  (x = lo → v = 3 / 2) ∧ (x = hi → v = -(3 / 2))

/-- The ball is on track horizontally between the goal lines `30` and `570`
and vertically between the walls `0` and `450`. -/
def BallOnTrack (s : GameState) : Prop :=
  OnTrack 30 570 s.BallX s.BallVelX ∧ OnTrack 0 450 s.BallY s.BallVelY

/-! ## Shared lemmas -/

theorem resetBall_fst (s : GameState) (r : Rand) :
    (resetBall s r).1 =
      { s with
        BallX := 300
        BallY := 225
        BallVelX := if r 0 % 2 = 0 then 3 / 2 else -(3 / 2)
        BallVelY := if r 1 % 2 = 0 then 3 / 2 else -(3 / 2) } := by
  simp only [resetBall, Intn, width, height]
  split_ifs <;> norm_num

theorem movePaddle_inRange (paddle : Int) (direction : String) (s : GameState)
    (h : PaddlesInRange s) : PaddlesInRange (movePaddle paddle direction s) := by
  obtain ⟨h1, h2, h3, h4⟩ := h
  unfold movePaddle PaddlesInRange
  simp only [height]
  split_ifs <;> (refine ⟨?_, ?_, ?_, ?_⟩ <;> first | assumption | (dsimp only; linarith))

theorem handleMessage_inRange (msg : Msg) (s : GameState) (h : PaddlesInRange s) :
    PaddlesInRange ((handleMessage msg s).getD s) := by
  unfold handleMessage
  split_ifs
  · split
    · split
      · exact movePaddle_inRange _ _ _ h
      · exact h
    · exact h
  · exact h

theorem updateGame_paddles (s : GameState) (r : Rand) :
    (updateGame s r).1.Paddle1Y = s.Paddle1Y ∧ (updateGame s r).1.Paddle2Y = s.Paddle2Y := by
  unfold updateGame checkRight checkLeft bounceWalls moveBall
  dsimp only
  split_ifs <;> simp [resetBall_fst]

theorem step_inRange (e : Event) (p : GameState × Rand) (h : PaddlesInRange p.1) :
    PaddlesInRange (step e p).1 := by
  cases e with
  | command msg => exact handleMessage_inRange msg p.1 h
  | tick =>
    obtain ⟨h1, h2⟩ := updateGame_paddles p.1 p.2
    unfold PaddlesInRange at h ⊢
    simp only [step]
    rw [h1, h2]
    exact h

theorem run_inRange (evs : List Event) (p : GameState × Rand) (h : PaddlesInRange p.1) :
    PaddlesInRange (run evs p).1 := by
  induction evs generalizing p with
  | nil => exact h
  | cons e rest ih => exact ih (step e p) (step_inRange e p h)

theorem initState_inRange : PaddlesInRange initState := by
  unfold PaddlesInRange initState height
  norm_num

/-! ## Paddle commands -/

/-- C1: starting from the initial state, after every finite trace of
handled messages (among them every move command for paddle 1 or 2, up or
down) interleaved in any way with ticks, whatever the random draws, both
`Paddle1Y` and `Paddle2Y` lie in `[0, 375]`, and `375 = height - 75`. -/
theorem paddles_clamped_on_every_trace (evs : List Event) (r : Rand) :
    0 ≤ (run evs (initState, r)).1.Paddle1Y ∧ (run evs (initState, r)).1.Paddle1Y ≤ 375 ∧
    0 ≤ (run evs (initState, r)).1.Paddle2Y ∧ (run evs (initState, r)).1.Paddle2Y ≤ 375 ∧
    height - 75 = 375 :=
  have h := run_inRange evs (initState, r) initState_inRange
  ⟨h.1, h.2.1, h.2.2.1, h.2.2.2, by norm_num [height]⟩

/-! ## The physics tick -/

/-- The result of `updateGame`, case by case on the advanced ball position:
a left-paddle hit, a left miss, a right-paddle hit, a right miss, or none
of them.  The vertical velocity has already been flipped if a wall was
reached. -/
theorem updateGame_fst (s : GameState) (r : Rand) :
    (updateGame s r).1 =
      if s.BallX + s.BallVelX ≤ 30 then
        if s.Paddle1Y ≤ s.BallY + s.BallVelY ∧ s.BallY + s.BallVelY ≤ s.Paddle1Y + 75 then
          { s with
            BallX := s.BallX + s.BallVelX
            BallY := s.BallY + s.BallVelY
            BallVelX := -s.BallVelX
            BallVelY := (bounceWalls (moveBall s)).BallVelY }
        else
          { s with
            BallX := 300
            BallY := 225
            BallVelX := if r 0 % 2 = 0 then 3 / 2 else -(3 / 2)
            BallVelY := if r 1 % 2 = 0 then 3 / 2 else -(3 / 2)
            Score2 := s.Score2 + 1 }
      else if 570 ≤ s.BallX + s.BallVelX then
        if s.Paddle2Y ≤ s.BallY + s.BallVelY ∧ s.BallY + s.BallVelY ≤ s.Paddle2Y + 75 then
          { s with
            BallX := s.BallX + s.BallVelX
            BallY := s.BallY + s.BallVelY
            BallVelX := -s.BallVelX
            BallVelY := (bounceWalls (moveBall s)).BallVelY }
        else
          { s with
            BallX := 300
            BallY := 225
            BallVelX := if r 0 % 2 = 0 then 3 / 2 else -(3 / 2)
            BallVelY := if r 1 % 2 = 0 then 3 / 2 else -(3 / 2)
            Score1 := s.Score1 + 1 }
      else
        { s with
          BallX := s.BallX + s.BallVelX
          BallY := s.BallY + s.BallVelY
          BallVelY := (bounceWalls (moveBall s)).BallVelY } := by
  have h570 : width - 30 = 570 := by norm_num [width]
  have hc : ¬ ((300 : ℚ) ≥ 570) := by norm_num
  by_cases hx : s.BallX + s.BallVelX ≤ 30
  · have hx2 : ¬ (s.BallX + s.BallVelX ≥ 570) := by intro h; linarith
    by_cases hp : s.Paddle1Y ≤ s.BallY + s.BallVelY ∧ s.BallY + s.BallVelY ≤ s.Paddle1Y + 75
    · by_cases hw : s.BallY + s.BallVelY ≤ 0 ∨ s.BallY + s.BallVelY ≥ height <;>
        simp [updateGame, checkRight, checkLeft, bounceWalls, moveBall, hx, hx2, hp, hw, h570]
    · by_cases hw : s.BallY + s.BallVelY ≤ 0 ∨ s.BallY + s.BallVelY ≥ height <;>
        simp [updateGame, checkRight, checkLeft, bounceWalls, moveBall, hx, hp, hw, h570,
          resetBall_fst, hc]
  · by_cases hx2 : s.BallX + s.BallVelX ≥ 570
    · by_cases hp : s.Paddle2Y ≤ s.BallY + s.BallVelY ∧ s.BallY + s.BallVelY ≤ s.Paddle2Y + 75
      · by_cases hw : s.BallY + s.BallVelY ≤ 0 ∨ s.BallY + s.BallVelY ≥ height <;>
          simp [updateGame, checkRight, checkLeft, bounceWalls, moveBall, hx, hx2, hp, hw, h570]
      · by_cases hw : s.BallY + s.BallVelY ≤ 0 ∨ s.BallY + s.BallVelY ≥ height <;>
          simp [updateGame, checkRight, checkLeft, bounceWalls, moveBall, hx, hx2, hp, hw, h570,
            resetBall_fst]
    · by_cases hw : s.BallY + s.BallVelY ≤ 0 ∨ s.BallY + s.BallVelY ≥ height <;>
        simp [updateGame, checkRight, checkLeft, bounceWalls, moveBall, hx, hx2, hw, h570]

theorem wall_velY (s : GameState) :
    (bounceWalls (moveBall s)).BallVelY =
      if s.BallY + s.BallVelY ≤ 0 ∨ 450 ≤ s.BallY + s.BallVelY then -s.BallVelY
      else s.BallVelY := by
  unfold bounceWalls moveBall
  simp only [height, ge_iff_le]
  split_ifs <;> rfl

/-- C2: in one `updateGame`, whatever the state and the random draws,
exactly one of three things happens: both scores are unchanged; `Score1`
grows by exactly 1 and `Score2` is unchanged; `Score2` grows by exactly 1
and `Score1` is unchanged.  In the two scoring cases the resulting ball is
at `(300, 225)`, which is `(width / 2, height / 2)`. -/
theorem one_scoring_event_per_tick (s : GameState) (r : Rand) :
    (((updateGame s r).1.Score1 = s.Score1 ∧ (updateGame s r).1.Score2 = s.Score2) ∨
      ((updateGame s r).1.Score1 = s.Score1 + 1 ∧ (updateGame s r).1.Score2 = s.Score2) ∨
      ((updateGame s r).1.Score2 = s.Score2 + 1 ∧ (updateGame s r).1.Score1 = s.Score1)) ∧
    ¬ (((updateGame s r).1.Score1 = s.Score1 ∧ (updateGame s r).1.Score2 = s.Score2) ∧
      ((updateGame s r).1.Score1 = s.Score1 + 1 ∧ (updateGame s r).1.Score2 = s.Score2)) ∧
    ¬ (((updateGame s r).1.Score1 = s.Score1 ∧ (updateGame s r).1.Score2 = s.Score2) ∧
      ((updateGame s r).1.Score2 = s.Score2 + 1 ∧ (updateGame s r).1.Score1 = s.Score1)) ∧
    ¬ (((updateGame s r).1.Score1 = s.Score1 + 1 ∧ (updateGame s r).1.Score2 = s.Score2) ∧
      ((updateGame s r).1.Score2 = s.Score2 + 1 ∧ (updateGame s r).1.Score1 = s.Score1)) ∧
    ((updateGame s r).1.Score1 = s.Score1 + 1 ∨ (updateGame s r).1.Score2 = s.Score2 + 1 →
      (updateGame s r).1.BallX = 300 ∧ (updateGame s r).1.BallY = 225) ∧
    width / 2 = 300 ∧ height / 2 = 225 := by
  refine ⟨?_, by omega, by omega, by omega, ?_, by norm_num [width], by norm_num [height]⟩
  · rw [updateGame_fst]
    split_ifs <;> simp
  · rw [updateGame_fst]
    split_ifs <;> simp

/-- C3: when the advanced ball has `BallX ≤ 30` and `BallY` outside
`[Paddle1Y, Paddle1Y + 75]`, one `updateGame` adds exactly 1 to `Score2`,
leaves `Score1` alone, puts the ball at `(300, 225)` and sets `BallVelX`
from the first draw and `BallVelY` from the second, each to `1.5` or
`-1.5`. -/
theorem left_miss_scores_for_player2 (s : GameState) (r : Rand)
    (hx : s.BallX + s.BallVelX ≤ 30)
    (hy : ¬ (s.Paddle1Y ≤ s.BallY + s.BallVelY ∧ s.BallY + s.BallVelY ≤ s.Paddle1Y + 75)) :
    (updateGame s r).1.Score2 = s.Score2 + 1 ∧
    (updateGame s r).1.Score1 = s.Score1 ∧
    (updateGame s r).1.BallX = 300 ∧
    (updateGame s r).1.BallY = 225 ∧
    (updateGame s r).1.BallVelX = (if (Intn 2 r).1 = 0 then 3 / 2 else -(3 / 2)) ∧
    (updateGame s r).1.BallVelY = (if (Intn 2 (Intn 2 r).2).1 = 0 then 3 / 2 else -(3 / 2)) ∧
    ((updateGame s r).1.BallVelX = 3 / 2 ∨ (updateGame s r).1.BallVelX = -(3 / 2)) ∧
    ((updateGame s r).1.BallVelY = 3 / 2 ∨ (updateGame s r).1.BallVelY = -(3 / 2)) := by
  rw [updateGame_fst, if_pos hx, if_neg hy]
  refine ⟨rfl, rfl, rfl, rfl, rfl, rfl, ?_, ?_⟩
  · by_cases h : r 0 % 2 = 0 <;> simp [h]
  · by_cases h : r 1 % 2 = 0 <;> simp [h]

/-- Witness for C3: the left miss of `leftMissState` with all draws 1. -/
theorem left_miss_scores_for_player2_witness :
    leftMissState.BallX + leftMissState.BallVelX ≤ 30 ∧
    ¬ (leftMissState.Paddle1Y ≤ leftMissState.BallY + leftMissState.BallVelY ∧
      leftMissState.BallY + leftMissState.BallVelY ≤ leftMissState.Paddle1Y + 75) ∧
    (updateGame leftMissState (fun _ => 1)).1.Score2 = 1 ∧
    (updateGame leftMissState (fun _ => 1)).1.Score1 = 0 ∧
    (updateGame leftMissState (fun _ => 1)).1.BallX = 300 ∧
    (updateGame leftMissState (fun _ => 1)).1.BallY = 225 ∧
    (updateGame leftMissState (fun _ => 1)).1.BallVelX = -(3 / 2) ∧
    (updateGame leftMissState (fun _ => 1)).1.BallVelY = -(3 / 2) := by
  have hx : leftMissState.BallX + leftMissState.BallVelX ≤ 30 := by
    norm_num [leftMissState]
  have hy : ¬ (leftMissState.Paddle1Y ≤ leftMissState.BallY + leftMissState.BallVelY ∧
      leftMissState.BallY + leftMissState.BallVelY ≤ leftMissState.Paddle1Y + 75) := by
    norm_num [leftMissState]
  obtain ⟨h1, h2, h3, h4, h5, h6, -, -⟩ :=
    left_miss_scores_for_player2 leftMissState (fun _ => 1) hx hy
  refine ⟨hx, hy, ?_, ?_, h3, h4, ?_, ?_⟩
  · rw [h1]; rfl
  · rw [h2]; rfl
  · rw [h5]; simp [Intn]
  · rw [h6]; simp [Intn]

/-- C4: when the advanced ball has `BallX ≥ 570 = width - 30` and `BallY`
outside `[Paddle2Y, Paddle2Y + 75]`, one `updateGame` adds exactly 1 to
`Score1`, leaves `Score2` alone, puts the ball at `(300, 225)` and sets
both velocity components to `1.5` or `-1.5`. -/
theorem right_miss_scores_for_player1 (s : GameState) (r : Rand)
    (hx : s.BallX + s.BallVelX ≥ width - 30)
    (hy : ¬ (s.Paddle2Y ≤ s.BallY + s.BallVelY ∧ s.BallY + s.BallVelY ≤ s.Paddle2Y + 75)) :
    (updateGame s r).1.Score1 = s.Score1 + 1 ∧
    (updateGame s r).1.Score2 = s.Score2 ∧
    (updateGame s r).1.BallX = 300 ∧
    (updateGame s r).1.BallY = 225 ∧
    ((updateGame s r).1.BallVelX = 3 / 2 ∨ (updateGame s r).1.BallVelX = -(3 / 2)) ∧
    ((updateGame s r).1.BallVelY = 3 / 2 ∨ (updateGame s r).1.BallVelY = -(3 / 2)) ∧
    width - 30 = 570 := by
  have h570 : width - 30 = 570 := by norm_num [width]
  rw [h570] at hx
  have hx1 : ¬ (s.BallX + s.BallVelX ≤ 30) := by intro h; linarith
  rw [updateGame_fst, if_neg hx1, if_pos hx, if_neg hy]
  refine ⟨rfl, rfl, rfl, rfl, ?_, ?_, h570⟩
  · by_cases h : r 0 % 2 = 0 <;> simp [h]
  · by_cases h : r 1 % 2 = 0 <;> simp [h]

/-- Witness for C4: the right miss of `rightMissState`. -/
theorem right_miss_scores_for_player1_witness :
    rightMissState.BallX + rightMissState.BallVelX ≥ width - 30 ∧
    ¬ (rightMissState.Paddle2Y ≤ rightMissState.BallY + rightMissState.BallVelY ∧
      rightMissState.BallY + rightMissState.BallVelY ≤ rightMissState.Paddle2Y + 75) ∧
    (updateGame rightMissState (fun _ => 0)).1.Score1 = 1 ∧
    (updateGame rightMissState (fun _ => 0)).1.Score2 = 0 ∧
    (updateGame rightMissState (fun _ => 0)).1.BallX = 300 ∧
    (updateGame rightMissState (fun _ => 0)).1.BallY = 225 := by
  have hx : rightMissState.BallX + rightMissState.BallVelX ≥ width - 30 := by
    norm_num [rightMissState, width]
  have hy : ¬ (rightMissState.Paddle2Y ≤ rightMissState.BallY + rightMissState.BallVelY ∧
      rightMissState.BallY + rightMissState.BallVelY ≤ rightMissState.Paddle2Y + 75) := by
    norm_num [rightMissState]
  obtain ⟨h1, h2, h3, h4, -, -, -⟩ :=
    right_miss_scores_for_player1 rightMissState (fun _ => 0) hx hy
  refine ⟨hx, hy, ?_, ?_, h3, h4⟩
  · rw [h1]; rfl
  · rw [h2]; rfl

/-- C5: when the advanced ball lies strictly inside the field
(`0 < BallY + BallVelY < 450` and `30 < BallX + BallVelX < 570`), one
`updateGame` moves the ball by its velocity and changes nothing else:
velocities, paddles and scores are as before. -/
theorem free_flight_tick (s : GameState) (r : Rand)
    (hy0 : 0 < s.BallY + s.BallVelY) (hy1 : s.BallY + s.BallVelY < 450)
    (hx0 : 30 < s.BallX + s.BallVelX) (hx1 : s.BallX + s.BallVelX < 570) :
    (updateGame s r).1 =
      { s with BallX := s.BallX + s.BallVelX, BallY := s.BallY + s.BallVelY } := by
  have h1 : ¬ (s.BallX + s.BallVelX ≤ 30) := by intro h; linarith
  have h2 : ¬ (570 ≤ s.BallX + s.BallVelX) := by intro h; linarith
  have h3 : ¬ (s.BallY + s.BallVelY ≤ 0 ∨ 450 ≤ s.BallY + s.BallVelY) := by
    rintro (h | h) <;> linarith
  rw [updateGame_fst, if_neg h1, if_neg h2, wall_velY, if_neg h3]

/-- Witness for C5: the first tick from the start state gives the ball
`(301.5, 226.5)` with velocities, paddles and scores unchanged. -/
theorem free_flight_tick_witness :
    (0 < initState.BallY + initState.BallVelY ∧ initState.BallY + initState.BallVelY < 450 ∧
      30 < initState.BallX + initState.BallVelX ∧ initState.BallX + initState.BallVelX < 570) ∧
    initState =
      { BallX := 300, BallY := 225, BallVelX := 3 / 2, BallVelY := 3 / 2,
        Paddle1Y := 375 / 2, Paddle2Y := 375 / 2, Score1 := 0, Score2 := 0 } ∧
    (updateGame initState (fun _ => 0)).1 =
      { BallX := 603 / 2, BallY := 453 / 2, BallVelX := 3 / 2, BallVelY := 3 / 2,
        Paddle1Y := 375 / 2, Paddle2Y := 375 / 2, Score1 := 0, Score2 := 0 } := by
  have hy0 : 0 < initState.BallY + initState.BallVelY := by norm_num [initState, height]
  have hy1 : initState.BallY + initState.BallVelY < 450 := by norm_num [initState, height]
  have hx0 : 30 < initState.BallX + initState.BallVelX := by norm_num [initState, width]
  have hx1 : initState.BallX + initState.BallVelX < 570 := by norm_num [initState, width]
  refine ⟨⟨hy0, hy1, hx0, hx1⟩, by norm_num [initState, width, height], ?_⟩
  rw [free_flight_tick initState (fun _ => 0) hy0 hy1 hx0 hx1]
  norm_num [initState, width, height]

/-! ## Repeated paddle moves -/

theorem toInt_intCast (p : Int) : toInt (p : ℚ) = p := by
  simp [toInt]

theorem handleMessage_moveMsg (f : ℚ) (direction : String) (s : GameState) :
    handleMessage (moveMsg f direction) s = some (movePaddle (toInt f) direction s) := by
  simp [handleMessage, typeIsMove, moveMsg, List.lookup]

theorem down_ne_up : ¬ ("down" = "up") := by decide

theorem movePaddle_up (p : Int) (hp : p = 1 ∨ p = 2) (s : GameState) :
    paddleY p (movePaddle p "up" s) = max 0 (paddleY p s - 16) := by
  rcases hp with rfl | rfl <;> simp only [paddleY, movePaddle] <;> norm_num <;>
    split_ifs with h <;> dsimp only
  · rw [max_eq_left (by linarith)]
  · rw [max_eq_right (by linarith)]
  · rw [max_eq_left (by linarith)]
  · rw [max_eq_right (by linarith)]

theorem movePaddle_down (p : Int) (hp : p = 1 ∨ p = 2) (s : GameState) :
    paddleY p (movePaddle p "down" s) = min 375 (paddleY p s + 16) := by
  rcases hp with rfl | rfl <;> simp only [paddleY, movePaddle, height, down_ne_up] <;>
    norm_num <;> split_ifs with h <;> dsimp only
  · rw [min_eq_left (by linarith)]
  · rw [min_eq_right (by linarith)]
  · rw [min_eq_left (by linarith)]
  · rw [min_eq_right (by linarith)]

theorem readLoop_moves_up (conn : Conn) (p : Int) (hp : p = 1 ∨ p = 2) (n : Nat) (sv : Server)
    (h0 : 0 ≤ paddleY p sv.gameState) :
    paddleY p (readLoop conn (List.replicate n (Read.message (moveMsg p "up"))) sv).1.gameState =
      max 0 (paddleY p sv.gameState - 16 * n) := by
  induction n generalizing sv with
  | zero => simp [readLoop, max_eq_right h0]
  | succ k ih =>
    simp only [List.replicate_succ, readLoop, handleMessage_moveMsg, toInt_intCast]
    rw [ih _ (by simp only [movePaddle_up p hp]; exact le_max_left _ _)]
    simp only [movePaddle_up p hp]
    have hk : (0 : ℚ) ≤ (k : ℚ) := Nat.cast_nonneg k
    push_cast
    simp only [max_def]
    split_ifs <;> linarith

theorem readLoop_moves_down (conn : Conn) (p : Int) (hp : p = 1 ∨ p = 2) (n : Nat) (sv : Server)
    (h1 : paddleY p sv.gameState ≤ 375) :
    paddleY p (readLoop conn (List.replicate n (Read.message (moveMsg p "down"))) sv).1.gameState =
      min 375 (paddleY p sv.gameState + 16 * n) := by
  induction n generalizing sv with
  | zero => simp [readLoop, min_eq_right h1]
  | succ k ih =>
    simp only [List.replicate_succ, readLoop, handleMessage_moveMsg, toInt_intCast]
    rw [ih _ (by simp only [movePaddle_down p hp]; exact min_le_left _ _)]
    simp only [movePaddle_down p hp]
    have hk : (0 : ℚ) ≤ (k : ℚ) := Nat.cast_nonneg k
    push_cast
    simp only [min_def]
    split_ifs <;> linarith

theorem readLoop_moves_status (conn : Conn) (f : ℚ) (direction : String) (n : Nat)
    (sv : Server) :
    (readLoop conn (List.replicate n (Read.message (moveMsg f direction))) sv).2 =
      Status.reading := by
  induction n generalizing sv with
  | zero => rfl
  | succ k ih =>
    simp only [List.replicate_succ, readLoop, handleMessage_moveMsg]
    exact ih _

/-- C6: for a paddle `p` (1 or 2) at a position in `[0, 375]`, a handler
that reads `n` consecutive well-formed "up" commands for that paddle leaves
it at `max 0 (y - 16 n)`, and one that reads `n` consecutive "down" commands
leaves it at `min 375 (y + 16 n)`; in both cases the handler is still
reading afterwards. -/
theorem repeated_moves_saturate (conn : Conn) (sv : Server) (p : Int) (n : Nat)
    (hp : p = 1 ∨ p = 2) (h0 : 0 ≤ paddleY p sv.gameState)
    (h1 : paddleY p sv.gameState ≤ 375) :
    paddleY p (readLoop conn (List.replicate n (Read.message (moveMsg p "up"))) sv).1.gameState =
      max 0 (paddleY p sv.gameState - 16 * n) ∧
    paddleY p (readLoop conn (List.replicate n (Read.message (moveMsg p "down"))) sv).1.gameState =
      min 375 (paddleY p sv.gameState + 16 * n) ∧
    (readLoop conn (List.replicate n (Read.message (moveMsg p "up"))) sv).2 = Status.reading ∧
    (readLoop conn (List.replicate n (Read.message (moveMsg p "down"))) sv).2 = Status.reading :=
  ⟨readLoop_moves_up conn p hp n sv h0, readLoop_moves_down conn p hp n sv h1,
    readLoop_moves_status conn p "up" n sv, readLoop_moves_status conn p "down" n sv⟩

/-- Witness for C6: twenty "up" commands for paddle 1 from the start
position `187.5` leave `Paddle1Y` at `0`. -/
theorem repeated_moves_saturate_witness :
    ((1 : Int) = 1 ∨ (1 : Int) = 2) ∧
    initState.Paddle1Y = 375 / 2 ∧
    (readLoop 0 (List.replicate 20 (Read.message (moveMsg 1 "up")))
      { gameState := initState, clients := [0] }).1.gameState.Paddle1Y = 0 := by
  have hy : initState.Paddle1Y = 375 / 2 := by norm_num [initState, height]
  have h := (repeated_moves_saturate 0 { gameState := initState, clients := [0] } 1 20
    (Or.inl rfl) (by simp only [paddleY, if_true]; rw [hy]; norm_num)
    (by simp only [paddleY, if_true]; rw [hy]; norm_num)).1
  simp only [paddleY, if_true, hy] at h
  refine ⟨Or.inl rfl, hy, ?_⟩
  have e : (((1 : Int) : ℚ)) = 1 := by norm_num
  rw [e] at h
  rw [h]
  norm_num

/-! ## Messages the handler does not act on -/

theorem typeIsMove_jumpMsg : typeIsMove jumpMsg = false := by
  simp [typeIsMove, jumpMsg, List.lookup]

theorem readLoop_skip (conn : Conn) (msg : Msg) (rest : List Read) (sv : Server)
    (h : handleMessage msg sv.gameState = some sv.gameState) :
    readLoop conn (Read.message msg :: rest) sv = readLoop conn rest sv := by
  simp only [readLoop, h]

/-- C7, the claim as stated fails: after `wsHandler` has read the decoded
message with `"type": "jump"`, its loop has not terminated (it is waiting
for the next read) and the connection is still in the registry. -/
theorem invalid_type_keeps_connection :
    typeIsMove jumpMsg = false ∧
    (wsHandler 7 [Read.message jumpMsg] initServer).2 = Status.reading ∧
    7 ∈ (wsHandler 7 [Read.message jumpMsg] initServer).1.clients ∧
    ¬ ((wsHandler 7 [Read.message jumpMsg] initServer).2 = Status.disconnected ∧
      7 ∉ (wsHandler 7 [Read.message jumpMsg] initServer).1.clients) := by
  have h : wsHandler 7 [Read.message jumpMsg] initServer =
      ({ gameState := initState, clients := [7] }, Status.reading) := by
    simp [wsHandler, readLoop, handleMessage, typeIsMove_jumpMsg, addClient, initServer]
  rw [h]
  simp [typeIsMove_jumpMsg]

/-- C7, amended: a decoded message whose `type` is not the string `move`
is skipped.  The loop goes on to the following reads with the game state
and the registry exactly as they were; if nothing follows, the handler is
blocked in the next read and the registry is unchanged. -/
theorem non_move_message_is_skipped (conn : Conn) (msg : Msg) (rest : List Read) (sv : Server)
    (h : typeIsMove msg = false) :
    readLoop conn (Read.message msg :: rest) sv = readLoop conn rest sv ∧
    readLoop conn [Read.message msg] sv = (sv, Status.reading) := by
  have hm : handleMessage msg sv.gameState = some sv.gameState := by
    simp [handleMessage, h]
  exact ⟨readLoop_skip conn msg rest sv hm, by rw [readLoop_skip conn msg [] sv hm]; rfl⟩

/-- Witness for C7, amended: the `jump` message in front of a read error. -/
theorem non_move_message_is_skipped_witness :
    typeIsMove jumpMsg = false ∧
    readLoop 7 [Read.message jumpMsg, Read.error] initServer = readLoop 7 [Read.error] initServer ∧
    readLoop 7 [Read.message jumpMsg] initServer = (initServer, Status.reading) :=
  ⟨typeIsMove_jumpMsg,
    non_move_message_is_skipped 7 jumpMsg [Read.error] initServer typeIsMove_jumpMsg⟩

theorem movePaddle_unknown (paddle : Int) (direction : String) (s : GameState)
    (h : (paddle ≠ 1 ∧ paddle ≠ 2) ∨ (direction ≠ "up" ∧ direction ≠ "down")) :
    movePaddle paddle direction s = s := by
  unfold movePaddle
  rcases h with ⟨h1, h2⟩ | ⟨h1, h2⟩
  · simp [h1, h2]
  · simp [h1, h2]

theorem toInt_three : toInt 3 = 3 := by
  simp [toInt]

theorem wsHandler_moveMsg (conn : Conn) (f : ℚ) (direction : String) :
    wsHandler conn [Read.message (moveMsg f direction)] initServer =
      ({ gameState := movePaddle (toInt f) direction initState, clients := [conn] },
        Status.reading) := by
  simp [wsHandler, readLoop, handleMessage_moveMsg, addClient, initServer]

/-- C8, the claim as stated fails: a move message naming paddle 3, and one
with direction `left`, each leave the handler waiting for the next read
with the connection still registered, whereas a decode failure ends the
loop and deletes the connection. -/
theorem malformed_move_keeps_connection :
    (wsHandler 7 [Read.message (moveMsg 3 "up")] initServer).2 = Status.reading ∧
    7 ∈ (wsHandler 7 [Read.message (moveMsg 3 "up")] initServer).1.clients ∧
    (wsHandler 7 [Read.message (moveMsg 1 "left")] initServer).2 = Status.reading ∧
    7 ∈ (wsHandler 7 [Read.message (moveMsg 1 "left")] initServer).1.clients ∧
    (wsHandler 7 [Read.error] initServer).2 = Status.disconnected ∧
    7 ∉ (wsHandler 7 [Read.error] initServer).1.clients := by
  rw [wsHandler_moveMsg, wsHandler_moveMsg]
  simp [wsHandler, readLoop, addClient, deleteClient, initServer]

/-- C8, amended: a message of type `move` whose `paddle` is a number and
whose `direction` is a string is skipped when the integer part of the
number is neither 1 nor 2, or when the direction is neither `up` nor `down`.
The loop goes on to the following reads with the game state and the
registry exactly as they were; if nothing follows, the handler is blocked
in the next read and the registry is unchanged. -/
theorem unknown_paddle_or_direction_is_skipped (conn : Conn) (msg : Msg) (f : ℚ)
    (direction : String) (rest : List Read) (sv : Server)
    (ht : typeIsMove msg = true)
    (hp : msg.lookup "paddle" = some (Value.number f))
    (hd : msg.lookup "direction" = some (Value.string direction))
    (hbad : (toInt f ≠ 1 ∧ toInt f ≠ 2) ∨ (direction ≠ "up" ∧ direction ≠ "down")) :
    readLoop conn (Read.message msg :: rest) sv = readLoop conn rest sv ∧
    readLoop conn [Read.message msg] sv = (sv, Status.reading) := by
  have hm : handleMessage msg sv.gameState = some sv.gameState := by
    simp [handleMessage, ht, hp, hd, movePaddle_unknown _ _ _ hbad]
  exact ⟨readLoop_skip conn msg rest sv hm, by rw [readLoop_skip conn msg [] sv hm]; rfl⟩

/-- Witness for C8, amended: the move message for paddle 3 in front of a
read error. -/
theorem unknown_paddle_or_direction_is_skipped_witness :
    typeIsMove (moveMsg 3 "up") = true ∧
    (moveMsg 3 "up").lookup "paddle" = some (Value.number 3) ∧
    (moveMsg 3 "up").lookup "direction" = some (Value.string "up") ∧
    ((toInt 3 ≠ 1 ∧ toInt 3 ≠ 2) ∨ ("up" ≠ "up" ∧ "up" ≠ "down")) ∧
    readLoop 7 [Read.message (moveMsg 3 "up"), Read.error] initServer =
      readLoop 7 [Read.error] initServer ∧
    readLoop 7 [Read.message (moveMsg 3 "up")] initServer = (initServer, Status.reading) := by
  have ht : typeIsMove (moveMsg 3 "up") = true := by
    simp [typeIsMove, moveMsg, List.lookup]
  have hp : (moveMsg 3 "up").lookup "paddle" = some (Value.number 3) := by
    simp [moveMsg, List.lookup]
  have hd : (moveMsg 3 "up").lookup "direction" = some (Value.string "up") := by
    simp [moveMsg, List.lookup]
  have hbad : (toInt 3 ≠ 1 ∧ toInt 3 ≠ 2) ∨ ("up" ≠ "up" ∧ "up" ≠ "down") := by
    left
    rw [toInt_three]
    exact ⟨by decide, by decide⟩
  exact ⟨ht, hp, hd, hbad,
    unknown_paddle_or_direction_is_skipped 7 (moveMsg 3 "up") 3 "up" [Read.error] initServer
      ht hp hd hbad⟩

/-! ## Velocity sign changes -/

theorem sgn_neg_ne (v : ℚ) (h : v ≠ 0) : sgn (-v) ≠ sgn v := by
  unfold sgn
  rcases lt_or_gt_of_ne h with h1 | h1
  · have h2 : ¬ (0 < v) := not_lt.mpr (le_of_lt h1)
    have h3 : 0 < -v := by linarith
    simp [h1, h2, h3]
  · have h2 : ¬ (v < 0) := not_lt.mpr (le_of_lt h1)
    have h3 : ¬ (0 < -v) := by intro h4; linarith
    have h4 : -v < 0 := by linarith
    simp [h1, h2, h3, h4]

/-- C9, the claim as stated fails: on the left miss of `leftMissState`
with all draws 1 the sign of `BallVelY` changes (from `1.5` to `-1.5`, set
by the reset) although the advanced ball is at height `31.5`, strictly
between the walls. -/
theorem velY_sign_changes_without_wall :
    leftMissState.BallVelY ≠ 0 ∧
    sgn (updateGame leftMissState (fun _ => 1)).1.BallVelY ≠ sgn leftMissState.BallVelY ∧
    ¬ (leftMissState.BallY + leftMissState.BallVelY ≤ 0 ∨
      leftMissState.BallY + leftMissState.BallVelY ≥ 450) ∧
    ¬ (sgn (updateGame leftMissState (fun _ => 1)).1.BallVelY ≠ sgn leftMissState.BallVelY ↔
      (leftMissState.BallY + leftMissState.BallVelY ≤ 0 ∨
        leftMissState.BallY + leftMissState.BallVelY ≥ 450)) := by
  have hv : (updateGame leftMissState (fun _ => 1)).1.BallVelY = -(3 / 2) := by
    rw [updateGame_fst]
    norm_num [leftMissState]
  have h0 : leftMissState.BallVelY = 3 / 2 := rfl
  have hs : sgn (updateGame leftMissState (fun _ => 1)).1.BallVelY ≠
      sgn leftMissState.BallVelY := by
    rw [hv, h0]
    exact sgn_neg_ne (3 / 2) (by norm_num)
  have hw : ¬ (leftMissState.BallY + leftMissState.BallVelY ≤ 0 ∨
      leftMissState.BallY + leftMissState.BallVelY ≥ 450) := by
    norm_num [leftMissState]
  exact ⟨by rw [h0]; norm_num, hs, hw, fun h => hw (h.mp hs)⟩

/-- C9, amended: in a tick that scores no goal (both scores are unchanged,
so the ball is not reset), for a state with `BallVelY ≠ 0`, the sign of
`BallVelY` after `updateGame` differs from its sign before if and only if
the advanced ball has `BallY ≤ 0` or `BallY ≥ 450`. -/
theorem velY_sign_flips_iff_wall (s : GameState) (r : Rand) (hv : s.BallVelY ≠ 0)
    (h1 : (updateGame s r).1.Score1 = s.Score1) (h2 : (updateGame s r).1.Score2 = s.Score2) :
    sgn (updateGame s r).1.BallVelY ≠ sgn s.BallVelY ↔
      (s.BallY + s.BallVelY ≤ 0 ∨ s.BallY + s.BallVelY ≥ 450) := by
  have key : (updateGame s r).1.BallVelY =
      if s.BallY + s.BallVelY ≤ 0 ∨ 450 ≤ s.BallY + s.BallVelY then -s.BallVelY
      else s.BallVelY := by
    rw [← wall_velY]
    rw [updateGame_fst] at h1 h2 ⊢
    split_ifs at h1 h2 ⊢ <;> first | rfl | (exfalso; simp at h1 h2)
  rw [key]
  simp only [ge_iff_le]
  split_ifs with hw
  · exact ⟨fun _ => hw, fun _ => sgn_neg_ne _ hv⟩
  · exact ⟨fun h => absurd rfl h, fun h => absurd h hw⟩

/-- Witness for C9, amended: the wall bounce of `wallBounceState`. -/
theorem velY_sign_flips_iff_wall_witness :
    wallBounceState.BallVelY ≠ 0 ∧
    (updateGame wallBounceState (fun _ => 0)).1.Score1 = wallBounceState.Score1 ∧
    (updateGame wallBounceState (fun _ => 0)).1.Score2 = wallBounceState.Score2 ∧
    (sgn (updateGame wallBounceState (fun _ => 0)).1.BallVelY ≠ sgn wallBounceState.BallVelY ↔
      (wallBounceState.BallY + wallBounceState.BallVelY ≤ 0 ∨
        wallBounceState.BallY + wallBounceState.BallVelY ≥ 450)) := by
  have hv : wallBounceState.BallVelY ≠ 0 := by norm_num [wallBounceState]
  have h1 : (updateGame wallBounceState (fun _ => 0)).1.Score1 = wallBounceState.Score1 := by
    rw [updateGame_fst]; norm_num [wallBounceState]
  have h2 : (updateGame wallBounceState (fun _ => 0)).1.Score2 = wallBounceState.Score2 := by
    rw [updateGame_fst]; norm_num [wallBounceState]
  exact ⟨hv, h1, h2, velY_sign_flips_iff_wall wallBounceState (fun _ => 0) hv h1 h2⟩

/-- C10, the claim as stated fails: on the right miss of `rightMissState`
with all draws 1 the sign of `BallVelX` changes (from `1.5` to `-1.5`, set
by the reset) although the ball, at height `31.5`, overlaps neither
paddle. -/
theorem velX_sign_changes_without_paddle :
    rightMissState.BallVelX ≠ 0 ∧
    sgn (updateGame rightMissState (fun _ => 1)).1.BallVelX ≠ sgn rightMissState.BallVelX ∧
    ¬ ((rightMissState.BallX + rightMissState.BallVelX ≤ 30 ∧
        rightMissState.Paddle1Y ≤ rightMissState.BallY + rightMissState.BallVelY ∧
        rightMissState.BallY + rightMissState.BallVelY ≤ rightMissState.Paddle1Y + 75) ∨
      (rightMissState.BallX + rightMissState.BallVelX ≥ 570 ∧
        rightMissState.Paddle2Y ≤ rightMissState.BallY + rightMissState.BallVelY ∧
        rightMissState.BallY + rightMissState.BallVelY ≤ rightMissState.Paddle2Y + 75)) ∧
    ¬ (sgn (updateGame rightMissState (fun _ => 1)).1.BallVelX ≠ sgn rightMissState.BallVelX ↔
      ((rightMissState.BallX + rightMissState.BallVelX ≤ 30 ∧
        rightMissState.Paddle1Y ≤ rightMissState.BallY + rightMissState.BallVelY ∧
        rightMissState.BallY + rightMissState.BallVelY ≤ rightMissState.Paddle1Y + 75) ∨
      (rightMissState.BallX + rightMissState.BallVelX ≥ 570 ∧
        rightMissState.Paddle2Y ≤ rightMissState.BallY + rightMissState.BallVelY ∧
        rightMissState.BallY + rightMissState.BallVelY ≤ rightMissState.Paddle2Y + 75))) := by
  have hv : (updateGame rightMissState (fun _ => 1)).1.BallVelX = -(3 / 2) := by
    rw [updateGame_fst]
    norm_num [rightMissState]
  have h0 : rightMissState.BallVelX = 3 / 2 := rfl
  have hs : sgn (updateGame rightMissState (fun _ => 1)).1.BallVelX ≠
      sgn rightMissState.BallVelX := by
    rw [hv, h0]
    exact sgn_neg_ne (3 / 2) (by norm_num)
  have hn : ¬ ((rightMissState.BallX + rightMissState.BallVelX ≤ 30 ∧
        rightMissState.Paddle1Y ≤ rightMissState.BallY + rightMissState.BallVelY ∧
        rightMissState.BallY + rightMissState.BallVelY ≤ rightMissState.Paddle1Y + 75) ∨
      (rightMissState.BallX + rightMissState.BallVelX ≥ 570 ∧
        rightMissState.Paddle2Y ≤ rightMissState.BallY + rightMissState.BallVelY ∧
        rightMissState.BallY + rightMissState.BallVelY ≤ rightMissState.Paddle2Y + 75)) := by
    norm_num [rightMissState]
  exact ⟨by rw [h0]; norm_num, hs, hn, fun h => hn (h.mp hs)⟩

/-- C10, amended: in a tick that scores no goal (both scores are
unchanged, so the ball is not reset), for a state with `BallVelX ≠ 0`, the
sign of `BallVelX` after `updateGame` differs from its sign before if and
only if the advanced ball has `BallX ≤ 30` with
`Paddle1Y ≤ BallY ≤ Paddle1Y + 75`, or `BallX ≥ 570` with
`Paddle2Y ≤ BallY ≤ Paddle2Y + 75`. -/
theorem velX_sign_flips_iff_paddle (s : GameState) (r : Rand) (hv : s.BallVelX ≠ 0)
    (h1 : (updateGame s r).1.Score1 = s.Score1) (h2 : (updateGame s r).1.Score2 = s.Score2) :
    sgn (updateGame s r).1.BallVelX ≠ sgn s.BallVelX ↔
      ((s.BallX + s.BallVelX ≤ 30 ∧
        s.Paddle1Y ≤ s.BallY + s.BallVelY ∧ s.BallY + s.BallVelY ≤ s.Paddle1Y + 75) ∨
      (s.BallX + s.BallVelX ≥ 570 ∧
        s.Paddle2Y ≤ s.BallY + s.BallVelY ∧ s.BallY + s.BallVelY ≤ s.Paddle2Y + 75)) := by
  rw [updateGame_fst] at h1 h2 ⊢
  by_cases hx : s.BallX + s.BallVelX ≤ 30
  · have hx2 : ¬ (s.BallX + s.BallVelX ≥ 570) := by intro h; linarith
    by_cases hp : s.Paddle1Y ≤ s.BallY + s.BallVelY ∧ s.BallY + s.BallVelY ≤ s.Paddle1Y + 75
    · rw [if_pos hx, if_pos hp]
      exact ⟨fun _ => Or.inl ⟨hx, hp⟩, fun _ => sgn_neg_ne _ hv⟩
    · rw [if_pos hx, if_neg hp] at h2
      simp at h2
  · by_cases hx2 : 570 ≤ s.BallX + s.BallVelX
    · by_cases hp : s.Paddle2Y ≤ s.BallY + s.BallVelY ∧ s.BallY + s.BallVelY ≤ s.Paddle2Y + 75
      · rw [if_neg hx, if_pos hx2, if_pos hp]
        exact ⟨fun _ => Or.inr ⟨hx2, hp⟩, fun _ => sgn_neg_ne _ hv⟩
      · rw [if_neg hx, if_pos hx2, if_neg hp] at h1
        simp at h1
    · rw [if_neg hx, if_neg hx2]
      constructor
      · intro h; exact absurd rfl h
      · rintro (⟨h, -⟩ | ⟨h, -⟩)
        · exact absurd h hx
        · exact absurd h hx2

/-- Witness for C10, amended: the paddle hit of `paddleHitState`. -/
theorem velX_sign_flips_iff_paddle_witness :
    paddleHitState.BallVelX ≠ 0 ∧
    (updateGame paddleHitState (fun _ => 0)).1.Score1 = paddleHitState.Score1 ∧
    (updateGame paddleHitState (fun _ => 0)).1.Score2 = paddleHitState.Score2 ∧
    (sgn (updateGame paddleHitState (fun _ => 0)).1.BallVelX ≠ sgn paddleHitState.BallVelX ↔
      ((paddleHitState.BallX + paddleHitState.BallVelX ≤ 30 ∧
        paddleHitState.Paddle1Y ≤ paddleHitState.BallY + paddleHitState.BallVelY ∧
        paddleHitState.BallY + paddleHitState.BallVelY ≤ paddleHitState.Paddle1Y + 75) ∨
      (paddleHitState.BallX + paddleHitState.BallVelX ≥ 570 ∧
        paddleHitState.Paddle2Y ≤ paddleHitState.BallY + paddleHitState.BallVelY ∧
        paddleHitState.BallY + paddleHitState.BallVelY ≤ paddleHitState.Paddle2Y + 75))) := by
  have hv : paddleHitState.BallVelX ≠ 0 := by norm_num [paddleHitState]
  have h1 : (updateGame paddleHitState (fun _ => 0)).1.Score1 = paddleHitState.Score1 := by
    rw [updateGame_fst]; norm_num [paddleHitState]
  have h2 : (updateGame paddleHitState (fun _ => 0)).1.Score2 = paddleHitState.Score2 := by
    rw [updateGame_fst]; norm_num [paddleHitState]
  exact ⟨hv, h1, h2, velX_sign_flips_iff_paddle paddleHitState (fun _ => 0) hv h1 h2⟩

/-! ## Paddle bounces and frame conditions -/

/-- C11: when the advanced ball has `BallX ≤ 30` and
`Paddle1Y ≤ BallY ≤ Paddle1Y + 75` (both ends included), or `BallX ≥ 570`
and `Paddle2Y ≤ BallY ≤ Paddle2Y + 75` (both ends included), one
`updateGame` negates `BallVelX`, leaves both scores unchanged and leaves
the ball at the advanced position. -/
theorem paddle_bounce_negates_velX (s : GameState) (r : Rand)
    (h : (s.BallX + s.BallVelX ≤ 30 ∧
        s.Paddle1Y ≤ s.BallY + s.BallVelY ∧ s.BallY + s.BallVelY ≤ s.Paddle1Y + 75) ∨
      (s.BallX + s.BallVelX ≥ 570 ∧
        s.Paddle2Y ≤ s.BallY + s.BallVelY ∧ s.BallY + s.BallVelY ≤ s.Paddle2Y + 75)) :
    (updateGame s r).1.BallVelX = -s.BallVelX ∧
    (updateGame s r).1.Score1 = s.Score1 ∧
    (updateGame s r).1.Score2 = s.Score2 ∧
    (updateGame s r).1.BallX = s.BallX + s.BallVelX ∧
    (updateGame s r).1.BallY = s.BallY + s.BallVelY := by
  rcases h with ⟨hx, hp⟩ | ⟨hx, hp⟩
  · rw [updateGame_fst, if_pos hx, if_pos hp]
    exact ⟨rfl, rfl, rfl, rfl, rfl⟩
  · have hx1 : ¬ (s.BallX + s.BallVelX ≤ 30) := by intro h; linarith
    rw [updateGame_fst, if_neg hx1, if_pos hx, if_pos hp]
    exact ⟨rfl, rfl, rfl, rfl, rfl⟩

/-- Witness for C11: in `edgeHitState` the advanced ball is at `x = 30` and
at height `262.5 = Paddle1Y + 75`, the inclusive lower end of the paddle. -/
theorem paddle_bounce_negates_velX_witness :
    edgeHitState.BallX + edgeHitState.BallVelX ≤ 30 ∧
    edgeHitState.BallY + edgeHitState.BallVelY = edgeHitState.Paddle1Y + 75 ∧
    (updateGame edgeHitState (fun _ => 0)).1.BallVelX = 3 / 2 ∧
    (updateGame edgeHitState (fun _ => 0)).1.Score1 = 0 ∧
    (updateGame edgeHitState (fun _ => 0)).1.Score2 = 0 ∧
    (updateGame edgeHitState (fun _ => 0)).1.BallX = 30 ∧
    (updateGame edgeHitState (fun _ => 0)).1.BallY = 525 / 2 := by
  have hx : edgeHitState.BallX + edgeHitState.BallVelX ≤ 30 := by
    norm_num [edgeHitState]
  have he : edgeHitState.BallY + edgeHitState.BallVelY = edgeHitState.Paddle1Y + 75 := by
    norm_num [edgeHitState]
  have hp : edgeHitState.Paddle1Y ≤ edgeHitState.BallY + edgeHitState.BallVelY ∧
      edgeHitState.BallY + edgeHitState.BallVelY ≤ edgeHitState.Paddle1Y + 75 := by
    norm_num [edgeHitState]
  obtain ⟨h1, h2, h3, h4, h5⟩ :=
    paddle_bounce_negates_velX edgeHitState (fun _ => 0) (Or.inl ⟨hx, hp⟩)
  refine ⟨hx, he, ?_, ?_, ?_, ?_, ?_⟩
  · rw [h1]; norm_num [edgeHitState]
  · rw [h2]; rfl
  · rw [h3]; rfl
  · rw [h4]; norm_num [edgeHitState]
  · rw [h5]; norm_num [edgeHitState]

theorem toInt_one : toInt 1 = 1 := by
  simp [toInt]

theorem toInt_two : toInt 2 = 2 := by
  simp [toInt]

theorem movePaddle_one_frame (direction : String) (s : GameState) :
    movePaddle 1 direction s = { s with Paddle1Y := (movePaddle 1 direction s).Paddle1Y } := by
  unfold movePaddle
  simp only [if_true]
  split_ifs <;> rfl

theorem movePaddle_two_frame (direction : String) (s : GameState) :
    movePaddle 2 direction s = { s with Paddle2Y := (movePaddle 2 direction s).Paddle2Y } := by
  unfold movePaddle
  have h : ¬ ((2 : Int) = 1) := by decide
  simp only [h, if_false, if_true]
  split_ifs <;> rfl

/-- C14: a well-formed move command for paddle 1 is handled without a panic
and changes at most `Paddle1Y`; one for paddle 2 changes at most
`Paddle2Y`.  Ball position, ball velocity, both scores and the other paddle
are as before, whatever the direction. -/
theorem move_command_frame (direction : String) (s : GameState) :
    (∃ y : ℚ, handleMessage (moveMsg 1 direction) s = some { s with Paddle1Y := y }) ∧
    (∃ y : ℚ, handleMessage (moveMsg 2 direction) s = some { s with Paddle2Y := y }) := by
  refine ⟨⟨(movePaddle 1 direction s).Paddle1Y, ?_⟩, ⟨(movePaddle 2 direction s).Paddle2Y, ?_⟩⟩
  · rw [handleMessage_moveMsg, toInt_one, ← movePaddle_one_frame]
  · rw [handleMessage_moveMsg, toInt_two, ← movePaddle_two_frame]

/-- C15: `updateGame` leaves `Paddle1Y` and `Paddle2Y` unchanged, whatever
the state and the random draws. -/
theorem tick_leaves_paddles (s : GameState) (r : Rand) :
    (updateGame s r).1.Paddle1Y = s.Paddle1Y ∧ (updateGame s r).1.Paddle2Y = s.Paddle2Y := by
  rw [updateGame_fst]
  split_ifs <;> exact ⟨rfl, rfl⟩

/-! ## The early-return variant -/

theorem checkRight_resetBall (s : GameState) (r : Rand) :
    checkRight (resetBall s r).1 (resetBall s r).2 = resetBall s r := by
  have hx : (resetBall s r).1.BallX = 300 := by rw [resetBall_fst]
  have hc : ¬ ((300 : ℚ) ≥ width - 30) := by norm_num [width]
  unfold checkRight
  rw [hx, if_neg hc]

/-- C16: the variant of `updateGame` that returns right after the score
event of the left-side check yields, for every state and every random
stream, the same state and the same remaining stream as `updateGame`. -/
theorem early_return_equivalent (s : GameState) (r : Rand) :
    updateGameEarlyReturn s r = updateGame s r := by
  unfold updateGameEarlyReturn updateGame checkLeft
  dsimp only
  split_ifs
  · rfl
  · rw [checkRight_resetBall]
  · rfl

/-! ## Broadcast -/

theorem broadcastLoop_spec (writeOk : Conn → Bool) (state : GameState) (l : List Conn)
    (sv : Server) :
    (broadcastLoop writeOk state l sv).writes = l.map (fun c => (c, state)) ∧
    (broadcastLoop writeOk state l sv).closed = l.filter (fun c => !writeOk c) ∧
    (broadcastLoop writeOk state l sv).server.gameState = sv.gameState ∧
    (broadcastLoop writeOk state l sv).server.clients =
      sv.clients.filter (fun c => decide (c ∉ l) || writeOk c) := by
  induction l generalizing sv with
  | nil => simp [broadcastLoop]
  | cons a rest ih =>
    obtain ⟨h1, h2, h3, h4⟩ := ih sv
    obtain ⟨g1, g2, g3, g4⟩ := ih (deleteClient a sv)
    by_cases ha : writeOk a = true
    · simp only [broadcastLoop, ha, if_true]
      refine ⟨by simp [h1], by simp [h2, ha], h3, ?_⟩
      rw [h4]
      apply List.filter_congr
      intro c _
      by_cases hc : c = a
      · subst hc; simp [ha]
      · simp [hc]
    · have hf : writeOk a = false := by simpa using ha
      simp only [broadcastLoop, hf, Bool.false_eq_true, if_false]
      refine ⟨by simp [g1], by simp [g2, hf], by rw [g3]; rfl, ?_⟩
      rw [g4]
      simp only [deleteClient, List.filter_filter]
      apply List.filter_congr
      intro c _
      by_cases hc : c = a
      · subst hc; simp [ha]
      · simp [hc]

/-- C17: for every registry, every game state and every pattern `writeOk`
of write successes and failures, `broadcastGameState` makes one `WriteJSON`
call per registered connection, all with the same copy of the game state;
it closes exactly the connections whose write failed; afterwards the
registry holds exactly the previously registered connections whose write
succeeded; and the game state is untouched. -/
theorem broadcast_isolates_write_failures (writeOk : Conn → Bool) (sv : Server) :
    (broadcastGameState writeOk sv).writes = sv.clients.map (fun c => (c, sv.gameState)) ∧
    (broadcastGameState writeOk sv).closed = sv.clients.filter (fun c => !writeOk c) ∧
    (broadcastGameState writeOk sv).server.clients = sv.clients.filter writeOk ∧
    (∀ c, c ∈ (broadcastGameState writeOk sv).server.clients ↔
      c ∈ sv.clients ∧ writeOk c = true) ∧
    (broadcastGameState writeOk sv).server.gameState = sv.gameState := by
  obtain ⟨h1, h2, h3, h4⟩ := broadcastLoop_spec writeOk sv.gameState sv.clients sv
  have h5 : (broadcastGameState writeOk sv).server.clients = sv.clients.filter writeOk := by
    unfold broadcastGameState
    dsimp only
    rw [h4]
    apply List.filter_congr
    intro c hc
    simp [hc]
  refine ⟨h1, h2, h5, ?_, h3⟩
  intro c
  rw [h5, List.mem_filter]

/-! ## Commands the handler does not recognise -/

theorem handleMessage_unrecognised (msg : Msg) (s : GameState)
    (h : typeIsMove msg = false ∨
      (typeIsMove msg = true ∧
        ∃ f, msg.lookup "paddle" = some (Value.number f) ∧ toInt f ≠ 1 ∧ toInt f ≠ 2) ∨
      (typeIsMove msg = true ∧
        ∃ d, msg.lookup "direction" = some (Value.string d) ∧ d ≠ "up" ∧ d ≠ "down")) :
    handleMessage msg s = none ∨ handleMessage msg s = some s := by
  unfold handleMessage
  rcases h with h | ⟨ht, f, hf, h1, h2⟩ | ⟨ht, d, hd, h1, h2⟩
  · right; simp [h]
  · rw [if_pos ht, hf]
    dsimp only
    split
    · right; rw [movePaddle_unknown _ _ _ (Or.inl ⟨h1, h2⟩)]
    · left; rfl
  · rw [if_pos ht, hd]
    split
    · right; dsimp only; rw [movePaddle_unknown _ _ _ (Or.inr ⟨h1, h2⟩)]
    · left; rfl

/-- C20: a decoded message whose type is not `move`, or whose type is
`move` with a numeric paddle whose integer part is neither 1 nor 2, or
whose type is `move` with a string direction other than `up` and `down`,
leaves the whole game state as it was: as an event of a trace, and as a
message read by the receive loop of any connection (also when handling it
panics on the other field). -/
theorem unrecognised_command_keeps_state (msg : Msg) (conn : Conn) (sv : Server) (r : Rand)
    (h : typeIsMove msg = false ∨
      (typeIsMove msg = true ∧
        ∃ f, msg.lookup "paddle" = some (Value.number f) ∧ toInt f ≠ 1 ∧ toInt f ≠ 2) ∨
      (typeIsMove msg = true ∧
        ∃ d, msg.lookup "direction" = some (Value.string d) ∧ d ≠ "up" ∧ d ≠ "down")) :
    (step (Event.command msg) (sv.gameState, r)).1 = sv.gameState ∧
    (readLoop conn [Read.message msg] sv).1.gameState = sv.gameState := by
  rcases handleMessage_unrecognised msg sv.gameState h with hm | hm
  · simp [step, readLoop, hm]
  · simp [step, readLoop, hm]

/-- Witness for C20: the move message for paddle 3 without a direction,
whose handling panics, read by a handler on the start-up server. -/
theorem unrecognised_command_keeps_state_witness :
    typeIsMove noDirectionMsg = true ∧
    noDirectionMsg.lookup "paddle" = some (Value.number 3) ∧
    handleMessage noDirectionMsg initState = none ∧
    (step (Event.command noDirectionMsg) (initServer.gameState, fun _ => 0)).1 = initState ∧
    (readLoop 7 [Read.message noDirectionMsg] initServer).1.gameState = initState := by
  have ht : typeIsMove noDirectionMsg = true := by
    simp [typeIsMove, noDirectionMsg, List.lookup]
  have hp : noDirectionMsg.lookup "paddle" = some (Value.number 3) := by
    simp [noDirectionMsg, List.lookup]
  have hn : handleMessage noDirectionMsg initState = none := by
    simp [handleMessage, ht, hp]
    simp [noDirectionMsg, List.lookup]
  have h3 : toInt 3 ≠ 1 ∧ toInt 3 ≠ 2 := by
    rw [toInt_three]
    exact ⟨by decide, by decide⟩
  exact ⟨ht, hp, hn,
    unrecognised_command_keeps_state noDirectionMsg 7 initServer (fun _ => 0)
      (Or.inr (Or.inl ⟨ht, 3, hp, h3⟩))⟩

/-! ## The ball on reachable states -/

theorem onTrack_step (lo hi x v : ℚ) (n : Int) (hn : hi = lo + 3 / 2 * n)
    (h : OnTrack lo hi x v) :
    OnTrack lo hi (x + v) (if x + v ≤ lo ∨ hi ≤ x + v then -v else v) := by
  obtain ⟨hv, ⟨k, hk⟩, h1, h2, h3, h4⟩ := h
  rcases hv with rfl | rfl
  · have hne : x ≠ hi := fun e => by have := h4 e; norm_num at this
    have hlt : x < hi := lt_of_le_of_ne h2 hne
    have hkn : k < n := by
      have : (k : ℚ) < n := by rw [hk, hn] at hlt; linarith
      exact_mod_cast this
    have hkn1 : (k : ℚ) + 1 ≤ n := by exact_mod_cast hkn
    have hx : x + 3 / 2 ≤ hi := by rw [hk, hn]; linarith
    have hlo : ¬ (x + 3 / 2 ≤ lo) := by intro h; linarith
    have hk1 : x + 3 / 2 = lo + 3 / 2 * ((k + 1 : Int) : ℚ) := by
      rw [hk]; push_cast; ring
    by_cases he : hi ≤ x + 3 / 2
    · rw [if_pos (Or.inr he)]
      exact ⟨Or.inr rfl, ⟨k + 1, hk1⟩, by linarith, hx,
        fun e => absurd (le_of_eq e) hlo, fun _ => rfl⟩
    · rw [if_neg (by rintro (h | h); exacts [hlo h, he h])]
      exact ⟨Or.inl rfl, ⟨k + 1, hk1⟩, by linarith, hx,
        fun _ => rfl, fun e => absurd (le_of_eq e.symm) he⟩
  · have hne : x ≠ lo := fun e => by have := h3 e; norm_num at this
    have hlt : lo < x := lt_of_le_of_ne h1 (Ne.symm hne)
    have hk0 : 0 < k := by
      have : (0 : ℚ) < k := by rw [hk] at hlt; linarith
      exact_mod_cast this
    have hk01 : (1 : ℚ) ≤ k := by exact_mod_cast hk0
    have hx : lo ≤ x + -(3 / 2) := by rw [hk]; linarith
    have hhi : ¬ (hi ≤ x + -(3 / 2)) := by intro h; linarith
    have hk1 : x + -(3 / 2) = lo + 3 / 2 * ((k - 1 : Int) : ℚ) := by
      rw [hk]; push_cast; ring
    by_cases he : x + -(3 / 2) ≤ lo
    · rw [if_pos (Or.inl he)]
      exact ⟨Or.inl (by norm_num), ⟨k - 1, hk1⟩, hx, by linarith,
        fun _ => by norm_num, fun e => absurd (le_of_eq e.symm) hhi⟩
    · rw [if_neg (by rintro (h | h); exacts [he h, hhi h])]
      exact ⟨Or.inr rfl, ⟨k - 1, hk1⟩, hx, by linarith,
        fun e => absurd (le_of_eq e) he, fun _ => rfl⟩

theorem onTrack_resetX (d : Nat) :
    OnTrack 30 570 300 (if d % 2 = 0 then 3 / 2 else -(3 / 2)) := by
  refine ⟨by split_ifs <;> simp, ⟨180, by norm_num⟩, by norm_num, by norm_num,
    fun e => by norm_num at e, fun e => by norm_num at e⟩

theorem onTrack_resetY (d : Nat) :
    OnTrack 0 450 225 (if d % 2 = 0 then 3 / 2 else -(3 / 2)) := by
  refine ⟨by split_ifs <;> simp, ⟨150, by norm_num⟩, by norm_num, by norm_num,
    fun e => by norm_num at e, fun e => by norm_num at e⟩

theorem updateGame_onTrack (s : GameState) (r : Rand) (h : BallOnTrack s) :
    BallOnTrack (updateGame s r).1 := by
  have hX := onTrack_step 30 570 s.BallX s.BallVelX 360 (by norm_num) h.1
  have hY := onTrack_step 0 450 s.BallY s.BallVelY 300 (by norm_num) h.2
  rw [updateGame_fst, wall_velY]
  unfold BallOnTrack
  by_cases hx : s.BallX + s.BallVelX ≤ 30
  · rw [if_pos (Or.inl hx)] at hX
    rw [if_pos hx]
    by_cases hp : s.Paddle1Y ≤ s.BallY + s.BallVelY ∧ s.BallY + s.BallVelY ≤ s.Paddle1Y + 75
    · rw [if_pos hp]
      exact ⟨hX, hY⟩
    · rw [if_neg hp]
      exact ⟨onTrack_resetX _, onTrack_resetY _⟩
  · rw [if_neg hx]
    by_cases hx2 : 570 ≤ s.BallX + s.BallVelX
    · rw [if_pos (Or.inr hx2)] at hX
      rw [if_pos hx2]
      by_cases hp : s.Paddle2Y ≤ s.BallY + s.BallVelY ∧ s.BallY + s.BallVelY ≤ s.Paddle2Y + 75
      · rw [if_pos hp]
        exact ⟨hX, hY⟩
      · rw [if_neg hp]
        exact ⟨onTrack_resetX _, onTrack_resetY _⟩
    · rw [if_neg (by rintro (h | h); exacts [hx h, hx2 h])] at hX
      rw [if_neg hx2]
      exact ⟨hX, hY⟩

theorem movePaddle_ball (paddle : Int) (direction : String) (s : GameState) :
    (movePaddle paddle direction s).BallX = s.BallX ∧
    (movePaddle paddle direction s).BallY = s.BallY ∧
    (movePaddle paddle direction s).BallVelX = s.BallVelX ∧
    (movePaddle paddle direction s).BallVelY = s.BallVelY := by
  unfold movePaddle
  dsimp only
  split_ifs <;> exact ⟨rfl, rfl, rfl, rfl⟩

theorem handleMessage_ball (msg : Msg) (s : GameState) :
    ((handleMessage msg s).getD s).BallX = s.BallX ∧
    ((handleMessage msg s).getD s).BallY = s.BallY ∧
    ((handleMessage msg s).getD s).BallVelX = s.BallVelX ∧
    ((handleMessage msg s).getD s).BallVelY = s.BallVelY := by
  unfold handleMessage
  split_ifs
  · split
    · split
      · exact movePaddle_ball _ _ s
      · exact ⟨rfl, rfl, rfl, rfl⟩
    · exact ⟨rfl, rfl, rfl, rfl⟩
  · exact ⟨rfl, rfl, rfl, rfl⟩

theorem step_onTrack (e : Event) (p : GameState × Rand) (h : BallOnTrack p.1) :
    BallOnTrack (step e p).1 := by
  cases e with
  | command msg =>
    obtain ⟨h1, h2, h3, h4⟩ := handleMessage_ball msg p.1
    unfold BallOnTrack at h ⊢
    simp only [step]
    rw [h1, h2, h3, h4]
    exact h
  | tick => exact updateGame_onTrack p.1 p.2 h

theorem run_onTrack (evs : List Event) (p : GameState × Rand) (h : BallOnTrack p.1) :
    BallOnTrack (run evs p).1 := by
  induction evs generalizing p with
  | nil => exact h
  | cons e rest ih => exact ih (step e p) (step_onTrack e p h)

theorem initState_onTrack : BallOnTrack initState := by
  unfold BallOnTrack OnTrack initState width height
  refine ⟨⟨Or.inl rfl, ⟨180, by norm_num⟩, by norm_num, by norm_num,
    fun _ => rfl, fun _ => by norm_num at *⟩,
    ⟨Or.inl rfl, ⟨150, by norm_num⟩, by norm_num, by norm_num,
    fun _ => rfl, fun _ => by norm_num at *⟩⟩

theorem reachable_onTrack (evs : List Event) (r : Rand) :
    BallOnTrack (run evs (initState, r)).1 :=
  run_onTrack evs (initState, r) initState_onTrack

theorem abs_of_speed (v : ℚ) (h : v = 3 / 2 ∨ v = -(3 / 2)) : |v| = 3 / 2 := by
  rcases h with rfl | rfl
  · norm_num [abs_of_pos]
  · rw [abs_neg]; norm_num [abs_of_pos]

/-- C12: in every state reached from the initial state by a trace of
handled messages and ticks, whatever the random draws, `BallVelX` is `1.5`
or `-1.5` and `BallVelY` is `1.5` or `-1.5`; and a further tick from such a
state leaves the magnitude of both components as it was. -/
theorem constant_speed_on_every_trace (evs : List Event) (r : Rand) :
    ((run evs (initState, r)).1.BallVelX = 3 / 2 ∨
      (run evs (initState, r)).1.BallVelX = -(3 / 2)) ∧
    ((run evs (initState, r)).1.BallVelY = 3 / 2 ∨
      (run evs (initState, r)).1.BallVelY = -(3 / 2)) ∧
    |(step Event.tick (run evs (initState, r))).1.BallVelX| =
      |(run evs (initState, r)).1.BallVelX| ∧
    |(step Event.tick (run evs (initState, r))).1.BallVelY| =
      |(run evs (initState, r)).1.BallVelY| := by
  have h := reachable_onTrack evs r
  have h2 := step_onTrack Event.tick (run evs (initState, r)) h
  refine ⟨h.1.1, h.2.1, ?_, ?_⟩
  · rw [abs_of_speed _ h2.1.1, abs_of_speed _ h.1.1]
  · rw [abs_of_speed _ h2.2.1, abs_of_speed _ h.2.1]

/-- C13: in every state reached from the initial state by a trace of
handled messages and ticks, whatever the random draws,
`-1.5 ≤ BallX ≤ 601.5` and `-1.5 ≤ BallY ≤ 451.5`.  The ball in fact stays
within `[30, 570] × [0, 450]`. -/
theorem ball_stays_in_field (evs : List Event) (r : Rand) :
    (-(3 / 2) ≤ (run evs (initState, r)).1.BallX ∧
      (run evs (initState, r)).1.BallX ≤ width + 3 / 2 ∧
      -(3 / 2) ≤ (run evs (initState, r)).1.BallY ∧
      (run evs (initState, r)).1.BallY ≤ height + 3 / 2) ∧
    (30 ≤ (run evs (initState, r)).1.BallX ∧ (run evs (initState, r)).1.BallX ≤ 570 ∧
      0 ≤ (run evs (initState, r)).1.BallY ∧ (run evs (initState, r)).1.BallY ≤ 450) ∧
    width + 3 / 2 = 1203 / 2 ∧ height + 3 / 2 = 903 / 2 := by
  obtain ⟨⟨-, -, h1, h2, -, -⟩, ⟨-, -, h3, h4, -, -⟩⟩ := reachable_onTrack evs r
  refine ⟨⟨by linarith, ?_, by linarith, ?_⟩, ⟨h1, h2, h3, h4⟩, by norm_num [width],
    by norm_num [height]⟩
  · simp only [width]; linarith
  · simp only [height]; linarith

/-! ## Two wall bounces in a row -/

theorem after_wall_bounce (s : GameState) (r : Rand) (h : BallOnTrack s)
    (hb : s.BallY + s.BallVelY ≤ 0 ∨ s.BallY + s.BallVelY ≥ 450) :
    0 < (updateGame s r).1.BallY + (updateGame s r).1.BallVelY ∧
    (updateGame s r).1.BallY + (updateGame s r).1.BallVelY < 450 := by
  obtain ⟨-, hv, -, h1, h2, h3, h4⟩ := updateGame_onTrack s r h
  have key : (updateGame s r).1.BallY = 225 ∨
      (updateGame s r).1.BallY = s.BallY + s.BallVelY := by
    rw [updateGame_fst]
    split_ifs <;> first | exact Or.inl rfl | exact Or.inr rfl
  rcases key with e | e
  · rw [e]
    rcases hv with v | v <;> rw [v] <;> norm_num
  · rcases hb with hb | hb
    · have e0 : (updateGame s r).1.BallY = 0 := le_antisymm (by rw [e]; exact hb) h1
      rw [h3 e0, e0]
      norm_num
    · have e0 : (updateGame s r).1.BallY = 450 := le_antisymm h2 (by rw [e]; exact hb)
      rw [h4 e0, e0]
      norm_num

theorem run_commands_ball (msgs : List Msg) (p : GameState × Rand) :
    (run (msgs.map Event.command) p).1.BallY = p.1.BallY ∧
    (run (msgs.map Event.command) p).1.BallVelY = p.1.BallVelY := by
  induction msgs generalizing p with
  | nil => exact ⟨rfl, rfl⟩
  | cons m rest ih =>
    obtain ⟨h1, h2⟩ := ih (step (Event.command m) p)
    obtain ⟨-, g2, -, g4⟩ := handleMessage_ball m p.1
    simp only [List.map_cons, run, List.foldl_cons] at h1 h2 ⊢
    rw [h1, h2]
    exact ⟨g2, g4⟩

theorem updateGame_free (s : GameState) (r : Rand)
    (hy0 : 0 < s.BallY + s.BallVelY) (hy1 : s.BallY + s.BallVelY < 450)
    (hx0 : 30 < s.BallX + s.BallVelX) (hx1 : s.BallX + s.BallVelX < 570) :
    updateGame s r =
      ({ s with BallX := s.BallX + s.BallVelX, BallY := s.BallY + s.BallVelY }, r) := by
  have h570 : width - 30 = 570 := by norm_num [width]
  have hx : ¬ (s.BallX + s.BallVelX ≤ 30) := by intro h; linarith
  have hx2 : ¬ (s.BallX + s.BallVelX ≥ 570) := by intro h; linarith
  have hw : ¬ (s.BallY + s.BallVelY ≤ 0 ∨ s.BallY + s.BallVelY ≥ height) := by
    rintro (h | h)
    · linarith
    · simp only [height] at h; linarith
  simp [updateGame, checkRight, checkLeft, bounceWalls, moveBall, hx, hx2, hw, h570]

theorem run_ticks_from_init (n : Nat) (hn : n ≤ 149) (r : Rand) :
    run (List.replicate n Event.tick) (initState, r) =
      ({ initState with BallX := 300 + 3 / 2 * n, BallY := 225 + 3 / 2 * n }, r) := by
  induction n with
  | zero =>
    simp only [List.replicate_zero, run, List.foldl_nil]
    norm_num [initState, width, height]
  | succ k ih =>
    have hk : (k : ℚ) ≤ 148 := by
      have : k ≤ 148 := by omega
      exact_mod_cast this
    have hk0 : (0 : ℚ) ≤ k := Nat.cast_nonneg k
    rw [List.replicate_succ', run, List.foldl_append]
    have ih2 := ih (by omega)
    unfold run at ih2
    rw [ih2]
    simp only [List.foldl_cons, List.foldl_nil, step]
    rw [updateGame_free _ _ (by norm_num [initState]; linarith)
      (by norm_num [initState]; linarith) (by norm_num [initState]; linarith)
      (by norm_num [initState]; linarith)]
    norm_num [initState]
    constructor <;> ring

/-- C19: in a run from the initial state, whatever the random draws, if a
tick performs a wall bounce (its advanced `BallY` is `≤ 0` or `≥ 450`),
then the next tick, with any handled messages in between, does not: after
its advance `BallY` is strictly between `0` and `450`. -/
theorem no_sticky_wall_bounce (evs : List Event) (msgs : List Msg) (r : Rand)
    (hb : (run evs (initState, r)).1.BallY + (run evs (initState, r)).1.BallVelY ≤ 0 ∨
      (run evs (initState, r)).1.BallY + (run evs (initState, r)).1.BallVelY ≥ 450) :
    0 < (run (Event.tick :: msgs.map Event.command) (run evs (initState, r))).1.BallY +
        (run (Event.tick :: msgs.map Event.command) (run evs (initState, r))).1.BallVelY ∧
    (run (Event.tick :: msgs.map Event.command) (run evs (initState, r))).1.BallY +
        (run (Event.tick :: msgs.map Event.command) (run evs (initState, r))).1.BallVelY <
      450 := by
  have h := after_wall_bounce (run evs (initState, r)).1 (run evs (initState, r)).2
    (reachable_onTrack evs r) hb
  obtain ⟨h1, h2⟩ := run_commands_ball msgs (step Event.tick (run evs (initState, r)))
  have e : run (Event.tick :: msgs.map Event.command) (run evs (initState, r)) =
      run (msgs.map Event.command) (step Event.tick (run evs (initState, r))) := rfl
  rw [e, h1, h2]
  exact h

/-- Witness for C19: the 150th tick from the start state brings the ball
to `BallY = 450` and bounces; after a paddle command and the 151st tick's
advance the ball is strictly inside. -/
theorem no_sticky_wall_bounce_witness :
    (run (List.replicate 149 Event.tick) (initState, fun _ => 0)).1.BallY +
      (run (List.replicate 149 Event.tick) (initState, fun _ => 0)).1.BallVelY = 450 ∧
    0 < (run (Event.tick :: [moveMsg 1 "up"].map Event.command)
          (run (List.replicate 149 Event.tick) (initState, fun _ => 0))).1.BallY +
        (run (Event.tick :: [moveMsg 1 "up"].map Event.command)
          (run (List.replicate 149 Event.tick) (initState, fun _ => 0))).1.BallVelY ∧
    (run (Event.tick :: [moveMsg 1 "up"].map Event.command)
          (run (List.replicate 149 Event.tick) (initState, fun _ => 0))).1.BallY +
        (run (Event.tick :: [moveMsg 1 "up"].map Event.command)
          (run (List.replicate 149 Event.tick) (initState, fun _ => 0))).1.BallVelY < 450 := by
  have e : (run (List.replicate 149 Event.tick) (initState, fun _ => 0)).1.BallY +
      (run (List.replicate 149 Event.tick) (initState, fun _ => 0)).1.BallVelY = 450 := by
    rw [run_ticks_from_init 149 (le_refl _)]
    norm_num [initState]
  exact ⟨e, no_sticky_wall_bounce (List.replicate 149 Event.tick) [moveMsg 1 "up"]
    (fun _ => 0) (Or.inr (le_of_eq e.symm))⟩

/-! ## Accesses outside the mutex -/

/-- C18, evaluated on the code: registration, a move command, removal and
`updateGame` touch the shared variables only while `mu` is held, but
`broadcastGameState` does not.  For every registry and every pattern of
write results its `range clients` loop reads the registry after
`mu.Unlock()`, with the mutex not held. -/
theorem broadcast_ranges_registry_unlocked (writeOk : Conn → Bool) (clients : List Conn) :
    lockedThroughout false (broadcastOps writeOk clients) = false ∧
    lockedThroughout false registerOps = true ∧
    lockedThroughout false moveOps = true ∧
    lockedThroughout false unregisterOps = true ∧
    lockedThroughout false updateGameOps = true := by
  refine ⟨?_, rfl, rfl, rfl, rfl⟩
  cases clients with
  | nil => rfl
  | cons c rest => simp [broadcastOps, broadcastLoopOps, lockedThroughout]

end Pong
